import Mathlib

/-!
A shallow embedding of `scripts/link-checker.py`, a markdown link checker:
`find_broken_links` walks a directory for `*.md` files, extracts inline
links `[text](target)`, resolves each target against the filesystem and
collects the broken ones; `print_summary` renders a textual report.

The filesystem is modelled as a snapshot of existing directories and files
(`FS`); absolute paths are lists of segments (`FsPath`). Python string
operations (`startswith`, `in`, `split`) are modelled character-wise, and
each `print` call is recorded as one line on the channel it writes to.
-/

namespace LinkChecker

/-- An absolute filesystem path as the list of its segments below `/`. -/
abbrev FsPath := List String

/-- `str(f)` for an absolute `pathlib` path: `/`-joined segments with the
leading slash. -/
def pathStr (p : FsPath) : String := "/" ++ String.intercalate "/" p

/-- Python `s.startswith(t)`: character-level prefix test. -/
def strStartsWith (s t : String) : Bool := t.toList.isPrefixOf s.toList

/-- `needle` occurs as a contiguous run somewhere in the second list. -/
def seqContains (needle : List Char) : List Char → Bool
  | [] => needle.isEmpty
  | c :: rest => needle.isPrefixOf (c :: rest) || seqContains needle rest

/-- Python `t in s`: character-level substring test. -/
def strContains (s t : String) : Bool := seqContains t.toList s.toList

/-- Python `s.endswith(t)`: character-level suffix test. -/
def strEndsWith (s t : String) : Bool := t.toList.isSuffixOf s.toList

/-- Split a character list on `/`. -/
def splitSlashAux : List Char → List Char → List String
  | [], acc => [acc.reverse.asString]
  | '/' :: rest, acc => acc.reverse.asString :: splitSlashAux rest []
  | c :: rest, acc => splitSlashAux rest (c :: acc)

/-- The segments `pathlib` parses out of a path string: split on `/`,
dropping empty segments (duplicate or leading slashes) and `.` segments,
keeping `..` segments. -/
def splitPath (s : String) : List String :=
  (splitSlashAux s.toList []).filter (fun seg => seg != "" && seg != ".")

/-- `Path.resolve()` with no symlinks in play: collapse `..` against the
segment before it; `..` at the root stays at the root, as on POSIX. -/
def normalize (segs : List String) : List String :=
  segs.foldl (fun acc seg => if seg == ".." then acc.dropLast else acc ++ [seg]) []

/-- The outcome of `md_file.read_text(encoding='utf-8')`: the decoded text,
or the message of the exception raised while reading or decoding. -/
inductive ReadResult where
  | ok (content : String)
  | err (msg : String)
  deriving DecidableEq, Repr

/-- A file that exists in the scanned snapshot. -/
structure FSFile where
  path : FsPath
  content : ReadResult
  deriving DecidableEq, Repr

/-- A snapshot of the filesystem: the directories and files that exist. -/
structure FS where
  dirs : List FsPath
  files : List FSFile
  deriving DecidableEq, Repr

/-- `target_path.exists()`: any entry at that path counts, file or
directory, with no type check. -/
def pathExists (fs : FS) (p : FsPath) : Bool :=
  fs.files.any (fun f => f.path == p) || fs.dirs.any (fun d => d == p)

/-- Well-formed snapshot: every proper truncation of a file path is an
existing directory (so files live inside directories, and `/` exists). -/
def FS.wf (fs : FS) : Prop :=
  ∀ f ∈ fs.files, ∀ k, k < f.path.length → f.path.take k ∈ fs.dirs

instance (fs : FS) : Decidable fs.wf := by
  unfold FS.wf
  infer_instance

/-- One attempt of the pattern `\[([^\]]+)\]\(([^)]+)\)` at the position
just after a `[`: a nonempty run of non-`]` characters, then `](`, then a
nonempty run of non-`)` characters, then `)`. Returns the two captures and
the remaining input. -/
def tryMatch (l : List Char) : Option (String × String × List Char) :=
  let txt := l.takeWhile (fun c => c != ']')
  match l.dropWhile (fun c => c != ']') with
  | ']' :: '(' :: r2 =>
    if txt.isEmpty then none
    else
      let tgt := r2.takeWhile (fun c => c != ')')
      match r2.dropWhile (fun c => c != ')') with
      | ')' :: r4 =>
        if tgt.isEmpty then none else some (txt.asString, tgt.asString, r4)
      | _ => none
  | _ => none

/-- `re.findall(r'\[([^\]]+)\]\(([^)]+)\)', content)`: scan left to right,
at each `[` try to complete a match, continue after a successful match and
at the next character otherwise. The fuel starts at the input length and
every recursive call strictly shrinks the input, so it never runs out. -/
def extractLinksAux : Nat → List Char → List (String × String)
  | 0, _ => []
  | _ + 1, [] => []
  | fuel + 1, c :: rest =>
    if c = '[' then
      match tryMatch rest with
      | some (txt, tgt, rest2) => (txt, tgt) :: extractLinksAux fuel rest2
      | none => extractLinksAux fuel rest
    else
      extractLinksAux fuel rest

def extractLinks (content : String) : List (String × String) :=
  extractLinksAux content.toList.length content.toList

/-- The two `continue` tests applied to each raw `link_path`: external
schemes and in-document anchors, then the empty string and the literal
placeholder `path`. -/
def isFiltered (tp : String) : Bool :=
  strStartsWith tp "http://" || strStartsWith tp "https://" ||
    strStartsWith tp "#" || strStartsWith tp "data:" || strStartsWith tp "mailto:" ||
    tp == "" || tp == "path"

/-- `link_path.split('#')[0]`: the part before the first `#` (the whole
string when there is none). -/
def cleanPath (tp : String) : String :=
  (tp.toList.takeWhile (fun c => c != '#')).asString

/-- The two resolution branches of the source: a `clean_path` starting with
`/` is joined to the parent of the scan root with its leading slashes
stripped (stripping is subsumed by `splitPath` dropping empty segments, and
no `resolve()` is applied on this branch); anything else is joined to the
document's own directory and normalized by `resolve()`. -/
def resolveClean (root mdDir : FsPath) (clean : String) : FsPath :=
  if strStartsWith clean "/" then root.dropLast ++ splitPath clean
  else normalize (mdDir ++ splitPath clean)

/-- `str(md_file.relative_to(doc_root))` for a file strictly under the
root. -/
def relStr (root : FsPath) (p : FsPath) : String :=
  String.intercalate "/" (p.drop root.length)

/-- One record of the `broken_links` list. -/
structure BrokenRecord where
  file : String
  linkText : String
  linkPath : String
  resolvedPath : FsPath
  deriving DecidableEq, Repr

/-- What one iteration of the `for link_text, link_path in links` loop
contributes: the increment to `total_links`, the appended broken record if
any, and the existence checks performed. -/
structure LinkOutcome where
  count : Nat
  record : Option BrokenRecord
  checks : List FsPath
  deriving DecidableEq, Repr

def checkLink (fs : FS) (root : FsPath) (mdFile : FsPath) (m : String × String) :
    LinkOutcome :=
  if isFiltered m.2 then { count := 0, record := none, checks := [] }
  else
    let clean := cleanPath m.2
    if clean == "" then { count := 1, record := none, checks := [] }
    else
      let target := resolveClean root mdFile.dropLast clean
      if pathExists fs target then { count := 1, record := none, checks := [target] }
      else
        { count := 1,
          record := some { file := relStr root mdFile, linkText := m.1,
                           linkPath := m.2, resolvedPath := target },
          checks := [target] }

/-- What scanning one file contributes to the run. -/
structure FileScan where
  broken : List BrokenRecord
  links : Nat
  out : List String
  deriving DecidableEq, Repr

/-- The body of the `for md_file in md_files` loop (with `verbose=False`):
an unreadable file only prints an error line — with a plain `print`, hence
on standard output — while a readable one has each extracted match checked
in order. -/
def scanFile (fs : FS) (root : FsPath) (f : FSFile) : FileScan :=
  match f.content with
  | .err e =>
    { broken := [], links := 0,
      out := ["Error processing " ++ pathStr f.path ++ ": " ++ e] }
  | .ok content =>
    let outs := (extractLinks content).map (checkLink fs root f.path)
    { broken := outs.filterMap (fun o => o.record),
      links := (outs.map (fun o => o.count)).sum,
      out := [] }

/-- `root.isPrefixOf p` strictly: `p` lies below the directory `root`. -/
def isUnder (root p : FsPath) : Bool :=
  root.isPrefixOf p && decide (root.length < p.length)

def hasMdName (p : FsPath) : Bool := strEndsWith (p.getLastD "") ".md"

/-- The comprehension `[f for f in Path(doc_root).rglob("*.md") if
'node_modules' not in str(f)]`: files below the root whose name matches
`*.md`, except any whose full path contains the substring `node_modules`.
A missing root yields the empty list, exactly as `rglob` silently does.
(Directories with a `*.md` name are not modelled.) -/
def keepFile (root : FsPath) (f : FSFile) : Bool :=
  isUnder root f.path && hasMdName f.path &&
    !strContains (pathStr f.path) "node_modules"

def discover (fs : FS) (root : FsPath) : List FSFile :=
  fs.files.filter (keepFile root)

/-- The value of `find_broken_links(doc_root)` plus what it printed: there
is no `print(..., file=sys.stderr)` anywhere in the function, so the
standard-error log is always empty. -/
structure ScanResult where
  broken : List BrokenRecord
  totalLinks : Nat
  totalFiles : Nat
  stdoutLog : List String
  stderrLog : List String
  deriving DecidableEq, Repr

def find_broken_links (fs : FS) (root : FsPath) : ScanResult :=
  let parts := (discover fs root).map (scanFile fs root)
  { broken := (parts.map (fun p => p.broken)).flatten,
    totalLinks := (parts.map (fun p => p.links)).sum,
    totalFiles := (discover fs root).length,
    stdoutLog := (parts.map (fun p => p.out)).flatten,
    stderrLog := [] }

def bar70 : String := String.mk (List.replicate 70 '=')

/-- The statistics block printed before the success-rate line. -/
def statsLines (r : ScanResult) : List String :=
  [bar70, "MARKDOWN LINK VALIDATION REPORT", bar70,
   "\n📊 Statistics:",
   "  Files scanned:        " ++ toString r.totalFiles,
   "  Total internal links: " ++ toString r.totalLinks,
   "  Broken links:         " ++ toString r.broken.length,
   "  Valid links:          " ++ toString (r.totalLinks - r.broken.length)]

/-- The keys of a dict built by insertion, in first-occurrence order. -/
def firstOccurrences (l : List String) : List String :=
  l.foldl (fun acc x => if x ∈ acc then acc else acc ++ [x]) []

/-- `Counter(l).items()`: each distinct value with its multiplicity, keyed
in first-occurrence order. -/
def counterItems (l : List String) : List (String × Nat) :=
  (firstOccurrences l).map (fun x => (x, l.count x))

/-- Stable descending insertion by count: an earlier item stays before a
later one with the same count. -/
def insertByCount (x : String × Nat) : List (String × Nat) → List (String × Nat)
  | [] => [x]
  | y :: ys => if x.2 < y.2 then y :: insertByCount x ys else x :: y :: ys

/-- The stable descending sort by count that `Counter.most_common` performs
(`heapq.nlargest` keyed on the count, ties resolved toward the earlier
item). -/
def sortByCountDesc : List (String × Nat) → List (String × Nat)
  | [] => []
  | x :: xs => insertByCount x (sortByCountDesc xs)

def mostCommon (n : Nat) (l : List (String × Nat)) : List (String × Nat) :=
  (sortByCountDesc l).take n

/-- `f"{count:3d}"`: right-aligned in a field of width three. -/
def pad3 (n : Nat) : String :=
  if n < 10 then "  " ++ toString n
  else if n < 100 then " " ++ toString n
  else toString n

/-- `Counter(item['file'] for item in broken).most_common(10)`. -/
def topFiles (broken : List BrokenRecord) : List (String × Nat) :=
  mostCommon 10 (counterItems (broken.map (fun r => r.file)))

/-- `Counter(item['link_path'] for item in broken).most_common(15)`. -/
def topLinks (broken : List BrokenRecord) : List (String × Nat) :=
  mostCommon 15 (counterItems (broken.map (fun r => r.linkPath)))

/-- The keys of `by_file` (a `defaultdict(list)` filled in encounter
order). -/
def byFileKeys (broken : List BrokenRecord) : List String :=
  firstOccurrences (broken.map (fun r => r.file))

/-- The records grouped under one key of `by_file`, in encounter order. -/
def recordsOf (broken : List BrokenRecord) (file : String) : List BrokenRecord :=
  broken.filter (fun r => r.file == file)

/-- Python string `<`: lexicographic comparison by code point. -/
def strLtb : List Char → List Char → Bool
  | [], [] => false
  | [], _ :: _ => true
  | _ :: _, [] => false
  | a :: as, b :: bs =>
    if a.toNat < b.toNat then true
    else if b.toNat < a.toNat then false
    else strLtb as bs

/-- Ascending insertion by name (keys are distinct, so ties cannot arise). -/
def insertByName (x : String) : List String → List String
  | [] => [x]
  | y :: ys => if strLtb y.toList x.toList then y :: insertByName x ys else x :: y :: ys

/-- The key order of `sorted(by_file.items())`. -/
def sortNames : List String → List String
  | [] => []
  | x :: xs => insertByName x (sortNames xs)

/-- The detailed-breakdown section: the first five files in name order, up
to five records each, then a `... and N more` trailer. -/
def detailLines (broken : List BrokenRecord) : List String :=
  (((sortNames (byFileKeys broken)).take 5).map (fun file =>
    let items := recordsOf broken file
    ["\n  " ++ file ++ ":"] ++
      (items.take 5).map
        (fun it => "    [" ++ it.linkText ++ "](" ++ it.linkPath ++ ")") ++
      (if 5 < items.length then
        ["    ... and " ++ toString (items.length - 5) ++ " more"]
      else []))).flatten

/-- Everything printed after the success-rate line. -/
def brokenBody (r : ScanResult) : List String :=
  if 0 < r.broken.length then
    ["\n🗂️  Files with broken links: " ++ toString (byFileKeys r.broken).length,
     "\n📁 Top 10 files with most broken links:"] ++
    (topFiles r.broken).map (fun fc => "  " ++ pad3 fc.2 ++ "x  " ++ fc.1) ++
    ["\n🔗 Top 15 most common broken link patterns:"] ++
    (topLinks r.broken).map (fun fc => "  " ++ pad3 fc.2 ++ "x  " ++ fc.1) ++
    ["\n📝 Detailed breakdown (first 5 files):"] ++ detailLines r.broken
  else ["\n✅ All links are valid!"]

/-- `(valid / total * 100):.1f` rendered in tenths of a percent; the last
decimal truncates where the float formatting would round, a difference no
property below depends on. -/
def rateLine (valid total : Nat) : String :=
  "  Success rate:         " ++ toString (valid * 1000 / total / 10) ++ "." ++
    toString (valid * 1000 / total % 10) ++ "%"

/-- `print_summary(doc_root)`: the lines printed to standard output, and
whether the call completed. When `total == 0` the success-rate f-string
raises ZeroDivisionError: the report stops right after the `Valid links`
line and the flag is `false` — the process dies with a traceback and a
nonzero exit code. -/
def print_summary (fs : FS) (root : FsPath) : List String × Bool :=
  let r := find_broken_links fs root
  let pre := r.stdoutLog ++ statsLines r
  if r.totalLinks == 0 then (pre, false)
  else
    (pre ++ [rateLine (r.totalLinks - r.broken.length) r.totalLinks] ++
      brokenBody r ++ ["\n" ++ bar70], true)

/-! ### Concrete filesystem snapshots used to exercise the scanner -/

/-- A root with one markdown file and no links at all. -/
def fs1 : FS :=
  { dirs := [[], ["docs"]],
    files := [{ path := ["docs", "readme.md"], content := .ok "no links here" }] }

/-- A populated filesystem in which the scan root `/missing` does not
exist. -/
def fs2 : FS :=
  { dirs := [[], ["a"]],
    files := [{ path := ["a", "x.md"], content := .ok "hello" }] }

/-- Root `/docs`: `/docs/a/b.md` links `../c.md`; `/docs/c.md` exists while
`/docs/a/c.md` does not. -/
def fs3 : FS :=
  { dirs := [[], ["docs"], ["docs", "a"]],
    files := [{ path := ["docs", "a", "b.md"], content := .ok "[x](../c.md)" },
              { path := ["docs", "c.md"], content := .ok "" }] }

/-- Root `/docs`: `/docs/a/b.md` links `/guide/intro.md`, which exists under
the parent of the root; `/docs/guide/intro.md` does not exist. -/
def fs3b : FS :=
  { dirs := [[], ["docs"], ["docs", "a"], ["guide"]],
    files := [{ path := ["docs", "a", "b.md"], content := .ok "[x](/guide/intro.md)" },
              { path := ["guide", "intro.md"], content := .ok "" }] }

/-- Like `fs3b`, but only `/docs/guide/intro.md` exists — which absolute
resolution must not find. -/
def fs3c : FS :=
  { dirs := [[], ["docs"], ["docs", "a"], ["docs", "guide"]],
    files := [{ path := ["docs", "a", "b.md"], content := .ok "[x](/guide/intro.md)" },
              { path := ["docs", "guide", "intro.md"], content := .ok "" }] }

/-- Root `/docs` with an unreadable file followed by a readable one whose
single link is broken. -/
def fs6 : FS :=
  { dirs := [[], ["docs"]],
    files := [{ path := ["docs", "bad.md"], content := .err "boom" },
              { path := ["docs", "good.md"], content := .ok "[a](missing.md)" }] }

/-- Root `/docs` with a qualifying markdown file whose name merely contains
`node_modules` as a substring, plus an ordinary file. -/
def fs10 : FS :=
  { dirs := [[], ["docs"]],
    files := [{ path := ["docs", "my_node_modules_notes.md"], content := .ok "[a](b.md)" },
              { path := ["docs", "real.md"], content := .ok "" }] }

/-- Broken records whose source files come in encounter order A, B, C with
counts 3, 3, 1. -/
def brokenC8 : List BrokenRecord :=
  [{ file := "A.md", linkText := "t", linkPath := "x", resolvedPath := ["x"] },
   { file := "B.md", linkText := "t", linkPath := "x", resolvedPath := ["x"] },
   { file := "A.md", linkText := "t", linkPath := "x", resolvedPath := ["x"] },
   { file := "B.md", linkText := "t", linkPath := "x", resolvedPath := ["x"] },
   { file := "A.md", linkText := "t", linkPath := "x", resolvedPath := ["x"] },
   { file := "B.md", linkText := "t", linkPath := "x", resolvedPath := ["x"] },
   { file := "C.md", linkText := "t", linkPath := "x", resolvedPath := ["x"] }]

/-! ### Helper lemmas -/

/-- Every element of `insertByCount x l` is `x` or an element of `l`. -/
theorem mem_insertByCount {z x : String × Nat} {l : List (String × Nat)}
    (h : z ∈ insertByCount x l) : z = x ∨ z ∈ l := by
  induction l with
  | nil => simpa [insertByCount] using h
  | cons y ys ih =>
    simp only [insertByCount] at h
    by_cases hxy : x.2 < y.2
    · rw [if_pos hxy] at h
      rcases List.mem_cons.mp h with hzy | hz
      · exact Or.inr (List.mem_cons.mpr (Or.inl hzy))
      · rcases ih hz with hzx | hzys
        · exact Or.inl hzx
        · exact Or.inr (List.mem_cons.mpr (Or.inr hzys))
    · rw [if_neg hxy] at h
      rcases List.mem_cons.mp h with hzx | hz
      · exact Or.inl hzx
      · exact Or.inr hz

/-- Inserting into a list sorted by descending count keeps it sorted. -/
theorem pairwise_insertByCount (x : String × Nat) (l : List (String × Nat))
    (h : List.Pairwise (fun a b => b.2 ≤ a.2) l) :
    List.Pairwise (fun a b => b.2 ≤ a.2) (insertByCount x l) := by
  induction l with
  | nil => simp [insertByCount]
  | cons y ys ih =>
    rcases List.pairwise_cons.mp h with ⟨hy, hys⟩
    by_cases hxy : x.2 < y.2
    · simp only [insertByCount, if_pos hxy]
      refine List.pairwise_cons.mpr ⟨?_, ih hys⟩
      intro z hz
      rcases mem_insertByCount hz with hzx | hzy
      · exact hzx ▸ Nat.le_of_lt hxy
      · exact hy z hzy
    · simp only [insertByCount, if_neg hxy]
      refine List.pairwise_cons.mpr ⟨?_, h⟩
      intro z hz
      rcases List.mem_cons.mp hz with hz1 | hz1
      · exact hz1 ▸ Nat.le_of_not_lt hxy
      · exact Nat.le_trans (hy z hz1) (Nat.le_of_not_lt hxy)

/-- The sort behind `most_common` orders by count, descending. -/
theorem pairwise_sortByCountDesc (l : List (String × Nat)) :
    List.Pairwise (fun a b => b.2 ≤ a.2) (sortByCountDesc l) := by
  induction l with
  | nil => simp [sortByCountDesc]
  | cons x xs ih => exact pairwise_insertByCount x _ ih

/-- In a well-formed snapshot, no file lies below a directory that does not
exist, so discovery from a missing root finds nothing — silently, exactly
as `rglob` behaves on a nonexistent path. -/
theorem discover_eq_nil_of_no_root (fs : FS) (root : FsPath)
    (hwf : fs.wf) (hroot : root ∉ fs.dirs) : discover fs root = [] := by
  rw [discover, List.filter_eq_nil_iff]
  intro f hf hkeep
  simp only [keepFile, Bool.and_eq_true] at hkeep
  have hunder := hkeep.1.1
  rw [isUnder, Bool.and_eq_true, decide_eq_true_eq] at hunder
  obtain ⟨hpre, hlt⟩ := hunder
  have htake : root = f.path.take root.length :=
    List.prefix_iff_eq_take.mp (List.isPrefixOf_iff_prefix.mp hpre)
  exact hroot (by rw [htake]; exact hwf f hf root.length hlt)

/-- `takeWhile` never looks past the first failing element, so whatever is
appended after one is invisible to it. -/
theorem takeWhile_append_stop (p : Char → Bool) (x : Char) (l₁ l₂ : List Char)
    (hx : p x = false) :
    (l₁ ++ x :: l₂).takeWhile p = l₁.takeWhile p := by
  induction l₁ with
  | nil => simp [List.takeWhile, hx]
  | cons c cs ih =>
    by_cases hc : p c = true
    · simp [List.takeWhile_cons, hc, ih]
    · simp [List.takeWhile_cons, hc]

/-- Truncation at the first `#` ignores a fragment suffix entirely. -/
theorem cleanPath_append_fragment (base frag : String) :
    cleanPath (base ++ "#" ++ frag) = cleanPath base := by
  have hdata : (base ++ "#" ++ frag).toList = base.toList ++ '#' :: frag.toList := by
    show (base ++ "#" ++ frag).data = base.data ++ '#' :: frag.data
    rw [String.data_append, String.data_append, List.append_assoc]
    rfl
  rw [cleanPath, cleanPath, hdata, takeWhile_append_stop _ '#' _ _ (by rfl)]

/-- Each loop iteration bumps `total_links` exactly when the match is not
filtered. -/
theorem checkLink_count (fs : FS) (root mdFile : FsPath) (m : String × String) :
    (checkLink fs root mdFile m).count = if isFiltered m.2 then 0 else 1 := by
  by_cases h1 : isFiltered m.2 = true
  · simp [checkLink, h1]
  · by_cases h2 : (cleanPath m.2 == "") = true
    · simp [checkLink, h1, h2]
    · by_cases h3 :
        pathExists fs (resolveClean root mdFile.dropLast (cleanPath m.2)) = true
      · simp [checkLink, h1, h2, h3]
      · simp [checkLink, h1, h2, h3]

/-- A broken record names the scanned document it came from, and an
iteration that emits one also counted the reference. -/
theorem checkLink_record_file (fs : FS) (root mdFile : FsPath) (m : String × String) :
    ∀ r, (checkLink fs root mdFile m).record = some r →
      r.file = relStr root mdFile ∧ (checkLink fs root mdFile m).count = 1 := by
  by_cases h1 : isFiltered m.2 = true
  · intro r h; simp [checkLink, h1] at h
  · by_cases h2 : (cleanPath m.2 == "") = true
    · intro r h; simp [checkLink, h1, h2] at h
    · by_cases h3 :
        pathExists fs (resolveClean root mdFile.dropLast (cleanPath m.2)) = true
      · intro r h; simp [checkLink, h1, h2, h3] at h
      · intro r h
        simp only [checkLink, h1, h2, h3, if_false, if_neg, ite_false] at h ⊢
        simp at h
        exact ⟨by rw [← h], by simp [h1, h2, h3]⟩

/-- The references of one document that survive the filter. -/
def nonFilteredCount (f : FSFile) : Nat :=
  match f.content with
  | .err _ => 0
  | .ok content => ((extractLinks content).filter (fun m => !isFiltered m.2)).length

/-- Summing the per-iteration increments counts exactly the non-filtered
matches, each once. -/
theorem sum_counts_eq_nonFiltered (fs : FS) (root mdFile : FsPath)
    (links : List (String × String)) :
    ((links.map (checkLink fs root mdFile)).map (fun o => o.count)).sum =
      (links.filter (fun m => !isFiltered m.2)).length := by
  induction links with
  | nil => rfl
  | cons m ms ih =>
    simp only [List.map_cons, List.sum_cons, List.filter_cons]
    rw [checkLink_count, List.map_map] at *
    by_cases h : isFiltered m.2 = true
    · simp [h, ih]
    · simp [h, ih, Nat.add_comm]

/-- Per file, `total_links` counts the non-filtered matches. -/
theorem scanFile_links_eq (fs : FS) (root : FsPath) (f : FSFile) :
    (scanFile fs root f).links = nonFilteredCount f := by
  cases hc : f.content with
  | err e => simp [scanFile, nonFilteredCount, hc]
  | ok content =>
    simp only [scanFile, nonFilteredCount, hc]
    exact sum_counts_eq_nonFiltered fs root f.path (extractLinks content)

/-- Per file, no more records are appended than references counted. -/
theorem scanFile_broken_le (fs : FS) (root : FsPath) (f : FSFile) :
    (scanFile fs root f).broken.length ≤ (scanFile fs root f).links := by
  cases hc : f.content with
  | err e => simp [scanFile, hc]
  | ok content =>
    simp only [scanFile, hc]
    generalize extractLinks content = links
    induction links with
    | nil => simp
    | cons m ms ih =>
      cases hr : (checkLink fs root f.path m).record with
      | none =>
        simp only [List.map_cons, List.filterMap_cons, hr, List.sum_cons]
        exact le_trans ih (Nat.le_add_left _ _)
      | some r =>
        have h1 := (checkLink_record_file fs root f.path m r hr).2
        simp only [List.map_cons, List.filterMap_cons, hr, List.sum_cons,
          List.length_cons, h1]
        omega

/-- Every record appended while scanning a file carries that file's
root-relative path. -/
theorem scanFile_broken_file (fs : FS) (root : FsPath) (f : FSFile) (r : BrokenRecord)
    (h : r ∈ (scanFile fs root f).broken) : r.file = relStr root f.path := by
  cases hc : f.content with
  | err e => simp [scanFile, hc] at h
  | ok content =>
    simp only [scanFile, hc] at h
    rcases List.mem_filterMap.mp h with ⟨o, ho, hro⟩
    rcases List.mem_map.mp ho with ⟨m, hm, rfl⟩
    exact (checkLink_record_file fs root f.path m r hro).1

/-! ### The claims -/

/-- C1: a zero-reference corpus does not get the defined success-rate
display the claim requires — `print_summary` evaluates
`(valid / total * 100)` with `total == 0`, raising ZeroDivisionError.
Generally, whenever `total_links` is zero the report stops right after the
`Valid links` line and the run aborts (the `false` flag); concretely, on
`fs1` (one linkless document) the printed output is exactly the banner and
statistics lines, with no success-rate line. -/
theorem C1_zero_reference_corpus_divides_by_zero :
    (∀ (fs : FS) (root : FsPath), (find_broken_links fs root).totalLinks = 0 →
        print_summary fs root =
          ((find_broken_links fs root).stdoutLog ++
            statsLines (find_broken_links fs root), false))
  ∧ (find_broken_links fs1 ["docs"]).totalLinks = 0
  ∧ print_summary fs1 ["docs"] =
      ([bar70, "MARKDOWN LINK VALIDATION REPORT", bar70, "\n📊 Statistics:",
        "  Files scanned:        1", "  Total internal links: 0",
        "  Broken links:         0", "  Valid links:          0"], false) := by
  refine ⟨?_, by rfl, by rfl⟩
  intro fs root h
  simp [print_summary, h]

/-- C1 witness: the division-by-zero abort, instantiated at the concrete
zero-reference corpus `fs1`. -/
theorem C1_zero_reference_corpus_divides_by_zero_witness :
    print_summary fs1 ["docs"] =
      ((find_broken_links fs1 ["docs"]).stdoutLog ++
        statsLines (find_broken_links fs1 ["docs"]), false) :=
  C1_zero_reference_corpus_divides_by_zero.1 fs1 ["docs"] (by rfl)

/-- C2 counterexample: scanning the nonexistent root `/missing` of `fs2`
does produce report output — the banner and statistics lines are printed —
before the run dies of the empty-corpus division error. So a partial report
is written, and no RootNotFound condition fires before report output. -/
theorem C2_missing_root_prints_partial_report :
    (print_summary fs2 ["missing"]).1 ≠ []
  ∧ "MARKDOWN LINK VALIDATION REPORT" ∈ (print_summary fs2 ["missing"]).1
  ∧ (print_summary fs2 ["missing"]).2 = false := by
  refine ⟨by decide, by decide, by rfl⟩

/-- C2 amended: on a missing root (well-formed snapshot, root not among its
directories) the scan silently discovers nothing and returns empty
statistics; the report banner and statistics lines are still printed and
the run then aborts with the zero-reference division error — a nonzero
exit, but not a RootNotFound condition, and not before report output. -/
theorem C2_missing_root_silently_scans_nothing (fs : FS) (root : FsPath)
    (hwf : fs.wf) (hroot : root ∉ fs.dirs) :
    find_broken_links fs root =
      { broken := [], totalLinks := 0, totalFiles := 0,
        stdoutLog := [], stderrLog := [] }
  ∧ (print_summary fs root).1 = statsLines (find_broken_links fs root)
  ∧ (print_summary fs root).1 ≠ []
  ∧ (print_summary fs root).2 = false := by
  have hd := discover_eq_nil_of_no_root fs root hwf hroot
  have hf : find_broken_links fs root =
      { broken := [], totalLinks := 0, totalFiles := 0,
        stdoutLog := [], stderrLog := [] } := by
    simp [find_broken_links, hd]
  refine ⟨hf, ?_, ?_, ?_⟩
  · simp [print_summary, hf]
  · simp [print_summary, hf, statsLines]
  · simp [print_summary, hf]

/-- C2 witness: the amended behaviour at the concrete snapshot `fs2` with
the missing root `/missing`. -/
theorem C2_missing_root_silently_scans_nothing_witness :
    find_broken_links fs2 ["missing"] =
      { broken := [], totalLinks := 0, totalFiles := 0,
        stdoutLog := [], stderrLog := [] }
  ∧ (print_summary fs2 ["missing"]).2 = false := by
  have h := C2_missing_root_silently_scans_nothing fs2 ["missing"] (by decide) (by decide)
  exact ⟨h.1, h.2.2.2⟩

/-- C3: target resolution follows the source's two branches — a
`clean_path` starting with `/` resolves against the parent of the scan
root, anything else against the document's own directory, normalized.
Concretely: under root `/docs`, `[x](../c.md)` in `/docs/a/b.md` checks
`/docs/c.md` (which exists in `fs3`, so nothing is broken), and
`[x](/guide/intro.md)` checks `/guide/intro.md` under `/docs`'s parent —
valid in `fs3b` where that file exists, and broken in `fs3c` where only
`/docs/guide/intro.md` exists. -/
theorem C3_two_branch_resolution :
    (∀ (root mdDir : FsPath) (clean : String),
        resolveClean root mdDir clean =
          if strStartsWith clean "/" then root.dropLast ++ splitPath clean
          else normalize (mdDir ++ splitPath clean))
  ∧ checkLink fs3 ["docs"] ["docs", "a", "b.md"] ("x", "../c.md") =
      { count := 1, record := none, checks := [["docs", "c.md"]] }
  ∧ (find_broken_links fs3 ["docs"]).totalLinks = 1
  ∧ (find_broken_links fs3 ["docs"]).broken = []
  ∧ checkLink fs3b ["docs"] ["docs", "a", "b.md"] ("x", "/guide/intro.md") =
      { count := 1, record := none, checks := [["guide", "intro.md"]] }
  ∧ (find_broken_links fs3b ["docs"]).broken = []
  ∧ ((find_broken_links fs3c ["docs"]).broken.map (fun r => r.resolvedPath)) =
      [["guide", "intro.md"]] :=
  ⟨fun _ _ _ => rfl, by rfl, by rfl, by rfl, by rfl, by rfl, by rfl⟩

/-- C6 counterexample: on `fs6` the read failure of `/docs/bad.md` is
printed with `print`, i.e. on standard output — the very stream the report
is written to — while standard error stays empty. So the failure is not
logged to a channel distinct from the report stream. The scan does continue
(the later file's broken link is recorded) and the unreadable file does
count in `files_scanned`. -/
theorem C6_error_log_shares_report_stream :
    (find_broken_links fs6 ["docs"]).stderrLog = []
  ∧ "Error processing /docs/bad.md: boom" ∈ (find_broken_links fs6 ["docs"]).stdoutLog
  ∧ (find_broken_links fs6 ["docs"]).totalFiles = 2
  ∧ (find_broken_links fs6 ["docs"]).broken.length = 1 := by
  refine ⟨by rfl, by decide, by rfl, by rfl⟩

/-- C6 amended: a read/decode failure is logged to standard output (the
report stream — standard error stays empty), the scan continues, and every
discovered file, readable or not, counts in `files_scanned`. -/
theorem C6_unreadable_file_logged_and_counted (fs : FS) (root : FsPath) :
    (find_broken_links fs root).stderrLog = []
  ∧ (find_broken_links fs root).totalFiles = (discover fs root).length
  ∧ ∀ f ∈ discover fs root, ∀ e, f.content = .err e →
      ("Error processing " ++ pathStr f.path ++ ": " ++ e) ∈
        (find_broken_links fs root).stdoutLog := by
  refine ⟨rfl, rfl, ?_⟩
  intro f hf e he
  show _ ∈ (((discover fs root).map (scanFile fs root)).map (fun p => p.out)).flatten
  refine List.mem_flatten.mpr ⟨(scanFile fs root f).out, ?_, ?_⟩
  · exact List.mem_map_of_mem _ (List.mem_map_of_mem _ hf)
  · simp [scanFile, he]

/-- C6 witness: the amended behaviour at the concrete unreadable file of
`fs6`. -/
theorem C6_unreadable_file_logged_and_counted_witness :
    ("Error processing " ++ pathStr ["docs", "bad.md"] ++ ": " ++ "boom") ∈
      (find_broken_links fs6 ["docs"]).stdoutLog :=
  (C6_unreadable_file_logged_and_counted fs6 ["docs"]).2.2
    ⟨["docs", "bad.md"], .err "boom"⟩ (by decide) "boom" rfl

/-- C8: the top-files ranking is ordered by broken-record count descending
(the sort behind `most_common` is pairwise-descending on counts), ties keep
encounter order, and at most 10 entries are taken. Concretely, for counts
A=3, B=3, C=1 encountered in order A, B, C, the ranking and its printed
lines list A before B before C. -/
theorem C8_top_files_ranking_stable :
    (∀ l : List (String × Nat),
        List.Pairwise (fun a b => b.2 ≤ a.2) (sortByCountDesc l))
  ∧ topFiles brokenC8 = [("A.md", 3), ("B.md", 3), ("C.md", 1)]
  ∧ (topFiles brokenC8).map (fun fc => "  " ++ pad3 fc.2 ++ "x  " ++ fc.1) =
      ["    3x  A.md", "    3x  B.md", "    1x  C.md"]
  ∧ ∀ broken : List BrokenRecord, (topFiles broken).length ≤ 10 := by
  refine ⟨pairwise_sortByCountDesc, by rfl, by rfl, ?_⟩
  intro broken
  rw [topFiles, mostCommon]
  exact List.length_take_le 10 _

/-- C10: discovery keeps a file exactly when it lies under the root, its
name matches `*.md`, and the *substring* `node_modules` does not occur
anywhere in its full path — not merely as a whole directory segment.
Concretely, `/docs/my_node_modules_notes.md` qualifies in every other way
and none of its segments equals `node_modules`, yet it is silently never
scanned: discovery returns only the other file of `fs10`. -/
theorem C10_node_modules_substring_exclusion :
    (∀ (fs : FS) (root : FsPath) (f : FSFile),
        f ∈ discover fs root ↔
          f ∈ fs.files ∧ isUnder root f.path = true ∧ hasMdName f.path = true ∧
            strContains (pathStr f.path) "node_modules" = false)
  ∧ (["docs", "my_node_modules_notes.md"].all (fun seg => seg != "node_modules")) = true
  ∧ isUnder ["docs"] ["docs", "my_node_modules_notes.md"] = true
  ∧ hasMdName ["docs", "my_node_modules_notes.md"] = true
  ∧ strContains (pathStr ["docs", "my_node_modules_notes.md"]) "node_modules" = true
  ∧ discover fs10 ["docs"] = [{ path := ["docs", "real.md"], content := .ok "" }]
  ∧ (find_broken_links fs10 ["docs"]).totalFiles = 1 := by
  refine ⟨?_, by rfl, by rfl, by rfl, by rfl, by rfl, by rfl⟩
  intro fs root f
  simp [discover, List.mem_filter, keepFile, Bool.and_eq_true, Bool.not_eq_true',
    and_assoc]

/-- C4: a match whose raw target is filtered — an external scheme, a
leading `#`, the empty string, or the literal `path` — contributes nothing
at all: no increment to `total_links`, no existence check, no broken
record. -/
theorem C4_filtered_match_contributes_nothing (fs : FS) (root mdFile : FsPath)
    (m : String × String) (h : isFiltered m.2 = true) :
    checkLink fs root mdFile m = { count := 0, record := none, checks := [] } := by
  simp [checkLink, h]

/-- C4 witness: the spec's four filtered examples, plus the remaining two
scheme prefixes, at a concrete scan position. -/
theorem C4_filtered_match_contributes_nothing_witness :
    checkLink fs1 ["docs"] ["docs", "readme.md"] ("x", "https://example.com/x") =
      { count := 0, record := none, checks := [] }
  ∧ checkLink fs1 ["docs"] ["docs", "readme.md"] ("x", "#section") =
      { count := 0, record := none, checks := [] }
  ∧ checkLink fs1 ["docs"] ["docs", "readme.md"] ("x", "") =
      { count := 0, record := none, checks := [] }
  ∧ checkLink fs1 ["docs"] ["docs", "readme.md"] ("x", "path") =
      { count := 0, record := none, checks := [] }
  ∧ checkLink fs1 ["docs"] ["docs", "readme.md"] ("x", "http://example.com") =
      { count := 0, record := none, checks := [] }
  ∧ checkLink fs1 ["docs"] ["docs", "readme.md"] ("x", "data:image/png;base64,AAAA") =
      { count := 0, record := none, checks := [] }
  ∧ checkLink fs1 ["docs"] ["docs", "readme.md"] ("x", "mailto:a@b.c") =
      { count := 0, record := none, checks := [] } :=
  ⟨C4_filtered_match_contributes_nothing _ _ _ _ (by rfl),
   C4_filtered_match_contributes_nothing _ _ _ _ (by rfl),
   C4_filtered_match_contributes_nothing _ _ _ _ (by rfl),
   C4_filtered_match_contributes_nothing _ _ _ _ (by rfl),
   C4_filtered_match_contributes_nothing _ _ _ _ (by rfl),
   C4_filtered_match_contributes_nothing _ _ _ _ (by rfl),
   C4_filtered_match_contributes_nothing _ _ _ _ (by rfl)⟩

/-- C5: only a target whose first character is `#` (or the empty target)
truncates to an empty `clean_path`, and every such target is already
pre-filtered — it contributes to neither `total_links` nor the broken
records, so the later empty-`clean_path` skip never fires on a counted
reference. -/
theorem C5_empty_clean_path_already_prefiltered (tp : String)
    (h : cleanPath tp = "") :
    isFiltered tp = true
  ∧ ∀ (fs : FS) (root mdFile : FsPath) (lt : String),
      checkLink fs root mdFile (lt, tp) =
        { count := 0, record := none, checks := [] } := by
  have hf : isFiltered tp = true := by
    obtain ⟨l⟩ := tp
    have hl : l.takeWhile (fun c => c != '#') = [] := by
      have h2 := congrArg String.data h
      simpa [cleanPath, List.asString, String.toList] using h2
    cases l with
    | nil => decide
    | cons c rest =>
      have hc : c = '#' := by
        rcases Bool.eq_false_or_eq_true (c != '#') with hb | hb
        · rw [List.takeWhile_cons, if_pos hb] at hl
          exact absurd hl (by simp)
        · simpa using hb
      subst hc
      have hpre : strStartsWith ⟨'#' :: rest⟩ "#" = true := by
        show (String.toList "#").isPrefixOf ('#' :: rest) = true
        have : String.toList "#" = ['#'] := rfl
        rw [this]
        simp [List.isPrefixOf]
      simp [isFiltered, hpre]
  exact ⟨hf, fun fs root mdFile lt => by simp [checkLink, hf]⟩

/-- C5 witness: the concrete fragment-only target `#install`. -/
theorem C5_empty_clean_path_already_prefiltered_witness :
    cleanPath "#install" = ""
  ∧ isFiltered "#install" = true
  ∧ checkLink fs1 ["docs"] ["docs", "readme.md"] ("x", "#install") =
      { count := 0, record := none, checks := [] } :=
  ⟨by rfl,
   (C5_empty_clean_path_already_prefiltered "#install" (by rfl)).1,
   (C5_empty_clean_path_already_prefiltered "#install" (by rfl)).2
     fs1 ["docs"] ["docs", "readme.md"] "x"⟩

/-- C7: for every run, there are at most as many broken records as counted
references; `total_links` is exactly the summed number of non-filtered
matches over the discovered documents (each counted once, valid or not);
and every broken record's `file` is the root-relative path of a document
the scan discovered. -/
theorem C7_run_statistics_invariants : ∀ (fs : FS) (root : FsPath),
    (find_broken_links fs root).broken.length ≤ (find_broken_links fs root).totalLinks
  ∧ (find_broken_links fs root).totalLinks =
      ((discover fs root).map nonFilteredCount).sum
  ∧ ∀ r ∈ (find_broken_links fs root).broken,
      ∃ f ∈ discover fs root, r.file = relStr root f.path := by
  intro fs root
  refine ⟨?_, ?_, ?_⟩
  · show ((((discover fs root).map (scanFile fs root)).map
        (fun p => p.broken)).flatten).length ≤
      (((discover fs root).map (scanFile fs root)).map (fun p => p.links)).sum
    rw [List.length_flatten, List.map_map, List.map_map, List.map_map]
    apply List.sum_le_sum
    intro f hf
    exact scanFile_broken_le fs root f
  · show (((discover fs root).map (scanFile fs root)).map (fun p => p.links)).sum =
      ((discover fs root).map nonFilteredCount).sum
    rw [List.map_map]
    congr 1
    apply List.map_congr_left
    intro f hf
    exact scanFile_links_eq fs root f
  · intro r hr
    have hr2 : r ∈ (((discover fs root).map (scanFile fs root)).map
        (fun p => p.broken)).flatten := hr
    rcases List.mem_flatten.mp hr2 with ⟨lb, hlb, hrb⟩
    rcases List.mem_map.mp hlb with ⟨p, hp, rfl⟩
    rcases List.mem_map.mp hp with ⟨f, hf, rfl⟩
    exact ⟨f, hf, scanFile_broken_file fs root f r hrb⟩

/-- C7 witness: the invariants at the concrete snapshot `fs6`, whose run
records one broken reference originating from `/docs/good.md`. -/
theorem C7_run_statistics_invariants_witness :
    ∃ f ∈ discover fs6 ["docs"],
      ({ file := "good.md", linkText := "a", linkPath := "missing.md",
         resolvedPath := ["docs", "missing.md"] } : BrokenRecord).file =
        relStr ["docs"] f.path :=
  (C7_run_statistics_invariants fs6 ["docs"]).2.2 _ (by decide)

/-- C9: a fragment suffix never changes the resolved target or the
outcome: truncation at the first `#` ignores it, so for any non-filtered
pair `base` and `base#frag` the same existence checks run, the reference
counts identically, and the validity outcome — including the recorded
resolved path, when broken — coincides. -/
theorem C9_fragment_suffix_same_outcome (base frag : String)
    (h1 : isFiltered base = false)
    (h2 : isFiltered (base ++ "#" ++ frag) = false) :
    cleanPath (base ++ "#" ++ frag) = cleanPath base
  ∧ ∀ (fs : FS) (root mdFile : FsPath) (lt : String),
      (checkLink fs root mdFile (lt, base ++ "#" ++ frag)).checks =
        (checkLink fs root mdFile (lt, base)).checks
    ∧ (checkLink fs root mdFile (lt, base ++ "#" ++ frag)).count =
        (checkLink fs root mdFile (lt, base)).count
    ∧ (checkLink fs root mdFile (lt, base ++ "#" ++ frag)).record.map
          (fun r => r.resolvedPath) =
        (checkLink fs root mdFile (lt, base)).record.map
          (fun r => r.resolvedPath) := by
  have hc := cleanPath_append_fragment base frag
  refine ⟨hc, fun fs root mdFile lt => ?_⟩
  simp only [checkLink, h1, h2, hc, Bool.false_eq_true, if_false]
  by_cases he : (cleanPath base == "") = true
  · simp [he]
  · simp only [he, if_false, Bool.false_eq_true]
    by_cases hx :
      pathExists fs (resolveClean root mdFile.dropLast (cleanPath base)) = true
    · simp [hx]
    · simp [hx]

/-- C9 witness: the spec's concrete pair `setup.md#install` and
`setup.md`. -/
theorem C9_fragment_suffix_same_outcome_witness :
    isFiltered "setup.md" = false
  ∧ isFiltered ("setup.md" ++ "#" ++ "install") = false
  ∧ cleanPath ("setup.md" ++ "#" ++ "install") = cleanPath "setup.md"
  ∧ (checkLink fs1 ["docs"] ["docs", "readme.md"]
        ("x", "setup.md" ++ "#" ++ "install")).checks =
      (checkLink fs1 ["docs"] ["docs", "readme.md"] ("x", "setup.md")).checks := by
  have h := C9_fragment_suffix_same_outcome "setup.md" "install" (by decide) (by decide)
  exact ⟨by decide, by decide, h.1, (h.2 fs1 ["docs"] ["docs", "readme.md"] "x").1⟩

end LinkChecker
